import Mathlib

/-!
Shallow embedding of the pharma_news_ai pipeline (content_processor.py,
post_generator.py, social_poster.py, utils.py, agent.py) together with proofs
about its extractive-summarization fallback, post composition, hashtag
sampling, platform dispatch, CSV output and article processing.

External collaborators (the NLTK sentence tokenizer, the NLTK stop-word list,
the NLTK cosine-distance routine, the Hugging Face summarization and
generation pipelines, and the ordering produced by numpy argsort and by
random.sample) are modelled as explicit function or list parameters; every
repository-owned computation is embedded from the source.
-/

set_option maxRecDepth 8000

/-- Auxiliary splitter over character lists: splits at whitespace characters,
dropping empty pieces, accumulating the current word in reverse.  This is the
semantics of the Python method split() with no argument. -/
def splitWsAux : List Char → List Char → List (List Char)
  | [], acc => if acc.isEmpty then [] else [acc.reverse]
  | c :: cs, acc =>
    if c.isWhitespace then
      if acc.isEmpty then splitWsAux cs [] else acc.reverse :: splitWsAux cs []
    else splitWsAux cs (c :: acc)

/-- Python text.split(): whitespace-separated words, empties dropped. -/
def pyWords (s : String) : List String :=
  (splitWsAux s.data []).map String.mk

/-- Number of words of a string, Python len(s.split()). -/
def wordCount (s : String) : Nat :=
  (pyWords s).length

/-- Word count measured directly on character data. -/
def wcData (l : List Char) : Nat :=
  (splitWsAux l []).length

/-- Characterwise form of the Python idiom " ".join(pieces). -/
def joinSpData : List (List Char) → List Char
  | [] => []
  | [d] => d
  | d :: e :: es => d ++ ' ' :: joinSpData (e :: es)

/-- Python " ".join(pieces) on strings. -/
def joinSp (l : List String) : String :=
  String.mk (joinSpData (l.map String.data))

/-- Python re.sub(r"\s+", " ", text).strip(): collapse whitespace runs to a
single space and trim the ends, equivalently the words rejoined by single
spaces. -/
def pyNormalizeWs (s : String) : String :=
  joinSp (pyWords s)

/-- Python s.strip(): drop leading and trailing whitespace. -/
def pyStrip (s : String) : String :=
  String.mk (((s.data.dropWhile Char.isWhitespace).reverse.dropWhile
    Char.isWhitespace).reverse)

/-- Python s.lower(), characterwise. -/
def pyLower (s : String) : String :=
  String.mk (s.data.map Char.toLower)

/-- Python slice s[:n] for a possibly negative bound n, as in
post[:280 - len(link) - 4]: a nonnegative bound takes a prefix, a negative
bound drops that many characters from the end. -/
def pySliceTo (s : String) (n : Int) : String :=
  if 0 ≤ n then String.mk (s.data.take n.toNat)
  else String.mk (s.data.take (s.data.length - n.natAbs))

/-- Python slice l[-n:] as used for np.argsort(scores)[-num_sentences:].
For n = 0 the slice l[-0:] is l[0:], the whole list. -/
def pyLastSlice {α : Type} (l : List α) (n : Nat) : List α :=
  if n = 0 then l else l.drop (l.length - n)

/-! ## social_poster.py -/

/-- Status record returned per platform by SocialPoster. -/
structure PostStatus where
  status : String
  message : String
deriving DecidableEq

/-- SocialPoster.__init__: the configured platform list, built by checking
the three known credential keys in a fixed order. -/
def mkPlatforms (credentials : List String) : List String :=
  (if "linkedin" ∈ credentials then ["linkedin"] else []) ++
    (if "facebook" ∈ credentials then ["facebook"] else []) ++
      (if "twitter" ∈ credentials then ["twitter"] else [])

/-- The per-platform posting stubs of SocialPoster, which always return a
simulated status, together with the unknown-platform branch of
post_to_platforms.  The stubs only log and return, so the surrounding
try/except never converts an exception. -/
def platformDispatch (platform : String) : PostStatus :=
  if platform = "linkedin" then
    ⟨"simulated", "LinkedIn posting simulation successful"⟩
  else if platform = "facebook" then
    ⟨"simulated", "Facebook posting simulation successful"⟩
  else if platform = "twitter" then
    ⟨"simulated", "Twitter posting simulation successful"⟩
  else ⟨"error", "Unknown platform: " ++ platform⟩

/-- Python platforms or self.platforms: None or an empty list falls back to
the configured platforms. -/
def effectivePlatforms (configured : List String)
    (platforms : Option (List String)) : List String :=
  match platforms with
  | none => configured
  | some l => if l.isEmpty then configured else l

/-- The body of the loop of SocialPoster.post_to_platforms for one requested
platform name. -/
def postEntry (configured : List String) (posts : List (String × String))
    (platform : String) : String × PostStatus :=
  if platform ∉ configured then
    (platform, ⟨"skipped", "Platform not configured"⟩)
  else if platform ∉ posts.map Prod.fst then
    (platform, ⟨"skipped", "No content available"⟩)
  else (platform, platformDispatch platform)

/-- SocialPoster.post_to_platforms: the per-platform results, in request
order (the Python dict maps each requested platform to its entry). -/
def post_to_platforms (configured : List String)
    (posts : List (String × String)) (platforms : Option (List String)) :
    List (String × PostStatus) :=
  (effectivePlatforms configured platforms).map (postEntry configured posts)

/-! ## utils.py, save_posts_to_csv -/

/-- All keys of all records, in record order. -/
def csvKeys (posts_data : List (List (String × String))) : List String :=
  (posts_data.map (fun r => r.map Prod.fst)).flatten

/-- sorted(fieldnames) over the set union of the keys of all records. -/
def csvFieldnames (posts_data : List (List (String × String))) : List String :=
  List.insertionSort (fun a b => a ≤ b) (csvKeys posts_data).dedup

/-- One CSV data row: the value of each field, the empty string when the
record lacks the key (the DictWriter restval default). -/
def csvRow (fieldnames : List String) (r : List (String × String)) :
    List String :=
  fieldnames.map (fun k => (r.lookup k).getD "")

/-- save_posts_to_csv, modelled as the written file content: the header row
and the data rows. -/
def save_posts_to_csv (posts_data : List (List (String × String))) :
    List String × List (List String) :=
  (csvFieldnames posts_data,
    posts_data.map (csvRow (csvFieldnames posts_data)))

/-! ## content_processor.py -/

/-- The stop-word-filtered lower-cased word list of a sentence, from
_sentence_similarity.  The stop-word list itself is NLTK data, passed in. -/
def sentWords (stop_words : List String) (sent : String) : List String :=
  ((pyWords sent).map pyLower).filter (fun w => decide (w ∉ stop_words))

/-- list(set(words1 + words2)) from _sentence_similarity.  The CPython set
iteration order is unspecified; first-occurrence order is one concrete
choice and every property proved here is order-independent. -/
def allWordsOf (words1 words2 : List String) : List String :=
  (words1 ++ words2).dedup

/-- The bag-of-words count vector of ws over the axis all_words. -/
def vectorFor (all_words ws : List String) : List Nat :=
  all_words.map (fun w => ws.count w)

/-- Sum of squares of a count vector: the square of the Euclidean norm that
appears in the denominator of the NLTK cosine distance. -/
def normSq (v : List Nat) : Nat :=
  (v.map (fun x => x * x)).sum

/-- ContentProcessor._sentence_similarity.  cosDist abstracts the NLTK
cosine_distance routine (real square roots, external library); the guard and
the vector construction are embedded from the source. -/
def _sentence_similarity (cosDist : List Nat → List Nat → ℚ)
    (stop_words : List String) (sent1 sent2 : String) : ℚ :=
  let words1 := sentWords stop_words sent1
  let words2 := sentWords stop_words sent2
  if words1.isEmpty || words2.isEmpty then 0
  else
    1 - cosDist (vectorFor (allWordsOf words1 words2) words1)
      (vectorFor (allWordsOf words1 words2) words2)

/-- The sentence score vector of extract_key_sentences: row sums of the
similarity matrix whose diagonal stays at its zero initialisation. -/
def sentenceScores (cosDist : List Nat → List Nat → ℚ)
    (stop_words : List String) (sentences : List String) : List ℚ :=
  (List.range sentences.length).map (fun i =>
    ((List.range sentences.length).map (fun j =>
      if i = j then 0
      else _sentence_similarity cosDist stop_words (sentences.getD i "")
        (sentences.getD j ""))).sum)

/-- sorted(np.argsort(sentence_scores)[-num_sentences:]) from
extract_key_sentences.  argsort abstracts numpy argsort, whose tie order is
unspecified; theorems assume only that it returns a permutation of the index
range. -/
def topIndices (argsort : List ℚ → List Nat)
    (cosDist : List Nat → List Nat → ℚ) (stop_words : List String)
    (sentences : List String) (num_sentences : Nat) : List Nat :=
  List.insertionSort (fun a b => a ≤ b)
    (pyLastSlice (argsort (sentenceScores cosDist stop_words sentences))
      num_sentences)

/-- ContentProcessor.extract_key_sentences.  sent_tokenize abstracts the NLTK
punkt sentence tokenizer. -/
def extract_key_sentences (argsort : List ℚ → List Nat)
    (cosDist : List Nat → List Nat → ℚ) (stop_words : List String)
    (sent_tokenize : String → List String) (text : String)
    (num_sentences : Nat) : String :=
  if (sent_tokenize text).length ≤ num_sentences then
    joinSp (sent_tokenize text)
  else
    joinSp ((topIndices argsort cosDist stop_words (sent_tokenize text)
      num_sentences).map (fun i => (sent_tokenize text).getD i ""))

/-- The sentence loop of ContentProcessor._split_into_chunks: chunks built so
far, the current chunk, its running word count, and the sentences still to
place. -/
def splitChunksGo (max_chunk_length : Nat) :
    List String → List String → Nat → List String → List String
  | chunks, cur, _, [] =>
    if cur.isEmpty then chunks else chunks ++ [joinSp cur]
  | chunks, cur, curLen, s :: rest =>
    if curLen + wordCount s ≤ max_chunk_length then
      splitChunksGo max_chunk_length chunks (cur ++ [s])
        (curLen + wordCount s) rest
    else
      splitChunksGo max_chunk_length (chunks ++ [joinSp cur]) [s]
        (wordCount s) rest

/-- ContentProcessor._split_into_chunks. -/
def _split_into_chunks (sent_tokenize : String → List String) (text : String)
    (max_chunk_length : Nat) : List String :=
  splitChunksGo max_chunk_length [] [] 0 (sent_tokenize text)

/-- ContentProcessor.generate_summary.  summarizer abstracts one call of the
Hugging Face summarization pipeline on a chunk; returning none models an
exception anywhere in the chunk loop, which the source catches by falling
back to extract_key_sentences(text, 3). -/
def generate_summary (summarizer : String → Option String)
    (argsort : List ℚ → List Nat) (cosDist : List Nat → List Nat → ℚ)
    (stop_words : List String) (sent_tokenize : String → List String)
    (text : String) (max_length min_length : Nat) : String :=
  let text := pyNormalizeWs text
  if (pyWords text).length < min_length then text
  else
    match (_split_into_chunks sent_tokenize text 1024).mapM summarizer with
    | some summaries =>
      let final_summary := joinSp summaries
      if max_length < (pyWords final_summary).length then
        joinSp ((pyWords final_summary).take max_length)
      else final_summary
    | none => extract_key_sentences argsort cosDist stop_words sent_tokenize
        text 3

/-! ## post_generator.py -/

/-- The fixed pharma hashtag pool of _generate_hashtags. -/
def commonHashtags : List String :=
  ["Pharma", "Pharmaceutical", "Healthcare", "Medicine", "BioTech",
    "DrugDevelopment", "ClinicalTrials", "MedicalResearch", "HealthTech",
    "LifeSciences", "PharmaIndustry"]

/-- The short-form hashtag pool used when short=True. -/
def shortHashtags : List String :=
  ["Pharma", "Health", "Med", "Biotech", "Science", "Research"]

/-- The hashtag source list selected by the short flag. -/
def tagPool (short : Bool) : List String :=
  if short then shortHashtags else commonHashtags

/-- random.sample(common_hashtags, min(num_hashtags, len(common_hashtags))):
sampling without replacement is modelled by taking a prefix of perm, an
arbitrary permutation of the pool supplied by the caller. -/
def selectedTags (perm : List String) (num_hashtags : Nat) (short : Bool) :
    List String :=
  perm.take (min num_hashtags (tagPool short).length)

/-- PostGenerator._generate_hashtags.  title and content are accepted and
ignored exactly as in the source. -/
def _generate_hashtags (title content : String) (perm : List String)
    (num_hashtags : Nat) (short : Bool) : String :=
  joinSp ((selectedTags perm num_hashtags short).map (fun tag => "#" ++ tag))

/-- The hard truncation of _generate_twitter_post: when the cleaned post plus
a space plus the link would exceed 280 characters, slice the post to
280 - len(link) - 4 characters and append a three-character ellipsis. -/
def truncatedPost (post link : String) : String :=
  if 280 < post.length + link.length + 1 then
    pySliceTo post ((280 : Int) - (link.length : Int) - 4) ++ "..."
  else post

/-- The conditional hashtag block of _generate_twitter_post: hashtags are
generated only when the truncated post plus the link leaves the budget under
240 characters. -/
def twitterHashtags (perm : List String) (title post link : String) : String :=
  if post.length + link.length + 1 < 240 then
    _generate_hashtags title "" perm 2 true
  else ""

/-- The non-fallback path of PostGenerator._generate_twitter_post, given the
cleaned generated text: truncate, conditionally add short hashtags, and join
the three pieces with the two literal spaces of the f-string
"{post} {hashtags} {link}" (written here as plain concatenation). -/
def twitter_compose (perm : List String) (post title link : String) : String :=
  truncatedPost post link ++ " " ++
    twitterHashtags perm title (truncatedPost post link) link ++ " " ++ link

/-! ## agent.py -/

/-- An article record as far as PharmaNewsAgent.process_articles inspects it:
the dictionary keys title and content may be absent, and processing writes
the summary key. -/
structure Article where
  title : Option String
  link : Option String
  content : Option String
  summary : Option String
deriving DecidableEq

/-- The guard of process_articles: the content key is present and its value
is truthy after strip(). -/
def bodyNonempty (a : Article) : Bool :=
  match a.content with
  | some c => !(pyStrip c == "")
  | none => false

/-- The summary attached to one article by process_articles: the generated
summary when the body is nonempty, otherwise article.get("title", ""). -/
def articleSummary (summarizer : String → Option String)
    (argsort : List ℚ → List Nat) (cosDist : List Nat → List Nat → ℚ)
    (stop_words : List String) (sent_tokenize : String → List String)
    (a : Article) : Article :=
  if bodyNonempty a then
    { a with summary := some (generate_summary summarizer argsort cosDist
        stop_words sent_tokenize (a.content.getD "") 150 50) }
  else { a with summary := some (a.title.getD "") }

/-- PharmaNewsAgent.process_articles over a batch in which no article raises:
every article gets its summary attached in order. -/
def process_articles (summarizer : String → Option String)
    (argsort : List ℚ → List Nat) (cosDist : List Nat → List Nat → ℚ)
    (stop_words : List String) (sent_tokenize : String → List String)
    (articles : List Article) : List Article :=
  articles.map (articleSummary summarizer argsort cosDist stop_words
    sent_tokenize)

/-! ## Helper lemmas -/

theorem strLength_mk (l : List Char) : (String.mk l).length = l.length := rfl

theorem strLength_append (a b : String) :
    (a ++ b).length = a.length + b.length := by
  rw [← String.length_data, ← String.length_data, ← String.length_data,
    String.data_append, List.length_append]

theorem strData_mk (l : List Char) : (String.mk l).data = l := rfl

theorem joinSp_nil : joinSp [] = "" := rfl

theorem joinSp_singleton (s : String) : joinSp [s] = s := by
  cases s
  rfl

theorem joinSp_cons (s t : String) (rest : List String) :
    joinSp (s :: t :: rest) =
      String.mk (s.data ++ ' ' :: (joinSp (t :: rest)).data) := rfl

theorem splitWsAux_append (ys : List Char) (xs : List Char) :
    ∀ acc, splitWsAux (xs ++ ' ' :: ys) acc
      = splitWsAux xs acc ++ splitWsAux ys [] := by
  have hsp : (' ' : Char).isWhitespace = true := by decide
  induction xs with
  | nil =>
    intro acc
    by_cases h : acc.isEmpty <;> simp [splitWsAux, hsp, h]
  | cons c cs ih =>
    intro acc
    by_cases hws : c.isWhitespace
    · by_cases h : acc.isEmpty <;> simp [splitWsAux, hws, h, ih]
    · simp [splitWsAux, hws, ih]

theorem wcData_append (xs ys : List Char) :
    wcData (xs ++ ' ' :: ys) = wcData xs + wcData ys := by
  simp [wcData, splitWsAux_append]

theorem wordCount_eq_wcData (s : String) : wordCount s = wcData s.data := by
  simp [wordCount, pyWords, wcData]

/-- Total word count of a list of strings, as accumulated by the chunking
loop. -/
def sumWords (l : List String) : Nat :=
  (l.map wordCount).sum

theorem wordCount_joinSp (l : List String) :
    wordCount (joinSp l) = sumWords l := by
  induction l with
  | nil => rfl
  | cons s rest ih =>
    cases rest with
    | nil => simp [joinSp_singleton, sumWords]
    | cons t rest2 =>
      rw [joinSp_cons, wordCount_eq_wcData, strData_mk, wcData_append,
        ← wordCount_eq_wcData, ← wordCount_eq_wcData, ih]
      simp [sumWords]

theorem splitChunksGo_nil (m : Nat) (chunks cur : List String) (curLen : Nat) :
    splitChunksGo m chunks cur curLen []
      = if cur.isEmpty then chunks else chunks ++ [joinSp cur] := rfl

theorem splitChunksGo_cons (m : Nat) (chunks cur : List String)
    (curLen : Nat) (s : String) (rest : List String) :
    splitChunksGo m chunks cur curLen (s :: rest)
      = if curLen + wordCount s ≤ m then
          splitChunksGo m chunks (cur ++ [s]) (curLen + wordCount s) rest
        else
          splitChunksGo m (chunks ++ [joinSp cur]) [s] (wordCount s) rest := rfl

theorem splitChunksGo_acc (m : Nat) (rest : List String) :
    ∀ chunks cur curLen, splitChunksGo m chunks cur curLen rest
      = chunks ++ splitChunksGo m [] cur curLen rest := by
  induction rest with
  | nil =>
    intro chunks cur curLen
    by_cases h : cur.isEmpty <;> simp [splitChunksGo_nil, h]
  | cons s rest ih =>
    intro chunks cur curLen
    by_cases h : curLen + wordCount s ≤ m
    · rw [splitChunksGo_cons, if_pos h, splitChunksGo_cons, if_pos h, ih]
    · rw [splitChunksGo_cons, if_neg h, splitChunksGo_cons, if_neg h,
        List.nil_append, ih, ih [joinSp cur], List.append_assoc]

theorem splitChunksGo_segments (m : Nat) (rest : List String) :
    ∀ cur curLen, ∃ segs : List (List String),
      splitChunksGo m [] cur curLen rest = segs.map joinSp
        ∧ segs.flatten = cur ++ rest := by
  induction rest with
  | nil =>
    intro cur curLen
    by_cases h : cur.isEmpty
    · exact ⟨[], by simp [splitChunksGo_nil, h],
        by simp [List.isEmpty_iff.mp h]⟩
    · exact ⟨[cur], by simp [splitChunksGo_nil, h], by simp⟩
  | cons s rest ih =>
    intro cur curLen
    by_cases h : curLen + wordCount s ≤ m
    · obtain ⟨segs, h1, h2⟩ := ih (cur ++ [s]) (curLen + wordCount s)
      refine ⟨segs, ?_, ?_⟩
      · rw [splitChunksGo_cons, if_pos h, h1]
      · rw [h2]; simp
    · obtain ⟨segs, h1, h2⟩ := ih [s] (wordCount s)
      refine ⟨cur :: segs, ?_, ?_⟩
      · rw [splitChunksGo_cons, if_neg h, splitChunksGo_acc, h1]
        simp
      · simp [h2]

theorem splitChunksGo_bound (m : Nat) (S : List String) (rest : List String) :
    ∀ chunks cur curLen,
      curLen = sumWords cur →
      (curLen ≤ m ∨ ∃ s, cur = [s] ∧ s ∈ S) →
      (∀ x ∈ rest, x ∈ S) →
      (∀ c ∈ chunks, wordCount c ≤ m ∨ c ∈ S) →
      ∀ c ∈ splitChunksGo m chunks cur curLen rest,
        wordCount c ≤ m ∨ c ∈ S := by
  induction rest with
  | nil =>
    intro chunks cur curLen hlen hinv _ hch c hc
    rw [splitChunksGo_nil] at hc
    by_cases h : cur.isEmpty
    · rw [if_pos h] at hc; exact hch c hc
    · rw [if_neg h] at hc
      rcases List.mem_append.mp hc with h1 | h1
      · exact hch c h1
      · have hc2 : c = joinSp cur := by simpa using h1
        subst hc2
        rcases hinv with h2 | ⟨s, hs, hsS⟩
        · left; rw [wordCount_joinSp]; omega
        · right; rw [hs, joinSp_singleton]; exact hsS
  | cons s rest ih =>
    intro chunks cur curLen hlen hinv hrest hch c hc
    rw [splitChunksGo_cons] at hc
    by_cases h : curLen + wordCount s ≤ m
    · rw [if_pos h] at hc
      refine ih chunks (cur ++ [s]) _ ?_ (Or.inl h) ?_ hch c hc
      · simp [sumWords, List.sum_append] at hlen ⊢; omega
      · intro x hx; exact hrest x (List.mem_cons_of_mem _ hx)
    · rw [if_neg h] at hc
      refine ih (chunks ++ [joinSp cur]) [s] (wordCount s) ?_ ?_ ?_ ?_ c hc
      · simp [sumWords]
      · exact Or.inr ⟨s, rfl, hrest s (List.mem_cons_self _ _)⟩
      · intro x hx; exact hrest x (List.mem_cons_of_mem _ hx)
      · intro c2 hc2
        rcases List.mem_append.mp hc2 with h1 | h1
        · exact hch c2 h1
        · have hc3 : c2 = joinSp cur := by simpa using h1
          subst hc3
          rcases hinv with h2 | ⟨t, ht, htS⟩
          · left; rw [wordCount_joinSp]; omega
          · right; rw [ht, joinSp_singleton]; exact htS

theorem pySliceTo_length_le (s : String) (n : Int) (h : 0 ≤ n) :
    (pySliceTo s n).length ≤ n.toNat := by
  rw [pySliceTo, if_pos h, strLength_mk, List.length_take]
  omega

theorem joinSp_length_two_le (l : List String) (b : Nat) (h2 : l.length ≤ 2)
    (hb : ∀ x ∈ l, x.length ≤ b) : (joinSp l).length ≤ 2 * b + 1 := by
  match l with
  | [] =>
    rw [joinSp_nil]
    have h0 : ("" : String).length = 0 := rfl
    omega
  | [a] =>
    rw [joinSp_singleton]
    have := hb a (by simp)
    omega
  | [a, c] =>
    have ha := hb a (by simp)
    have hc := hb c (by simp)
    have hlen : (joinSp [a, c]).length = a.length + 1 + c.length := by
      rw [joinSp_cons, joinSp_singleton, strLength_mk, List.length_append]
      rw [← String.length_data, ← String.length_data]
      simp
      omega
    omega
  | a :: c :: e :: rest => simp at h2

theorem shortHashtags_length_le : ∀ t ∈ shortHashtags, t.length ≤ 8 := by
  decide

theorem generated_short_hashtags_length (title : String) (perm : List String)
    (hperm : perm.Perm shortHashtags) :
    (_generate_hashtags title "" perm 2 true).length ≤ 19 := by
  rw [_generate_hashtags]
  have h19 : (2 : Nat) * 9 + 1 = 19 := by norm_num
  rw [← h19]
  apply joinSp_length_two_le
  · rw [List.length_map, selectedTags, List.length_take]
    omega
  · intro x hx
    obtain ⟨t, ht, hxt⟩ := List.mem_map.mp hx
    have htp : t ∈ perm := List.take_subset _ _ ht
    have hts : t ∈ shortHashtags := hperm.mem_iff.mp htp
    have := shortHashtags_length_le t hts
    rw [← hxt, strLength_append]
    have hhash : ("#" : String).length = 1 := rfl
    omega

theorem mkPlatforms_subset (credentials : List String) :
    ∀ p ∈ mkPlatforms credentials,
      p ∈ (["linkedin", "facebook", "twitter"] : List String) := by
  intro p hp
  rw [mkPlatforms] at hp
  rcases List.mem_append.mp hp with h | h
  · rcases List.mem_append.mp h with h1 | h1 <;> split_ifs at h1 <;>
      simp_all
  · split_ifs at h <;> simp_all

theorem postEntry_fst (configured : List String)
    (posts : List (String × String)) (platform : String) :
    (postEntry configured posts platform).1 = platform := by
  rw [postEntry]
  split_ifs <;> rfl

theorem lookup_map_postEntry (configured : List String)
    (posts : List (String × String)) (p : String) :
    ∀ requested : List String, p ∈ requested →
      ((requested.map (postEntry configured posts)).lookup p)
        = some (postEntry configured posts p).2 := by
  intro requested
  induction requested with
  | nil => simp
  | cons q rest ih =>
    intro hmem
    rw [List.map_cons]
    have hq := postEntry_fst configured posts q
    rcases hpq : postEntry configured posts q with ⟨k, v⟩
    have hkq : k = q := by rw [← hq, hpq]
    by_cases h : p = q
    · subst h
      rw [List.lookup_cons]
      simp [hkq, ← hpq]
      rw [hpq]
    · have hrest : p ∈ rest := by
        rcases List.mem_cons.mp hmem with h1 | h1
        · exact absurd h1 h
        · exact h1
      rw [List.lookup_cons]
      have : (p == k) = false := by
        simp [hkq]
        exact h
      simp [this]
      exact ih hrest

theorem normSq_pos (all_words ws : List String) (hws : ws ≠ [])
    (hsub : ∀ w ∈ ws, w ∈ all_words) : 0 < normSq (vectorFor all_words ws) := by
  obtain ⟨w, hw⟩ := List.exists_mem_of_ne_nil ws hws
  have hwAll : w ∈ all_words := hsub w hw
  have hcount : 0 < ws.count w := List.count_pos_iff.mpr hw
  have hmem : ws.count w ∈ vectorFor all_words ws :=
    List.mem_map.mpr ⟨w, hwAll, rfl⟩
  have hmem2 : ws.count w * ws.count w
      ∈ (vectorFor all_words ws).map (fun x => x * x) :=
    List.mem_map.mpr ⟨_, hmem, rfl⟩
  rw [normSq]
  rcases Nat.eq_zero_or_pos ((vectorFor all_words ws).map
    (fun x => x * x)).sum with hz | hpos
  · have := List.sum_eq_zero_iff.mp hz _ hmem2
    have := Nat.mul_pos hcount hcount
    omega
  · exact hpos

/-! ## Claim theorems -/

/-- C1 (counterexample): with a cleaned post of 256 characters and a link of
23 characters the budget lands exactly on 280, no hashtags fit, and the two
literal spaces of the join make the composed tweet 281 characters long,
refuting the claimed 280 bound. -/
def c1Post : String := String.mk (List.replicate 256 'a')

/-- The 23-character link of the C1 counterexample. -/
def c1Link : String := String.mk (List.replicate 23 'b')

/-- C1 counterexample: the composed Twitter post exceeds 280 characters. -/
theorem c1_counterexample :
    (twitter_compose shortHashtags c1Post "Title" c1Link).length = 281
    ∧ ¬((twitter_compose shortHashtags c1Post "Title" c1Link).length ≤ 280) := by
  constructor <;> decide

/-- C1 (amended): for every cleaned post, every link of at most 276
characters (so that the Python slice bound is nonnegative) and every sample
order of the short hashtag pool, the composed Twitter post has length at
most 281 characters; the bound 281 is attained, so 280 is not a bound. -/
theorem c1_twitter_length (perm : List String) (post title link : String)
    (hperm : perm.Perm shortHashtags) (hlink : link.length ≤ 276) :
    (twitter_compose perm post title link).length ≤ 281 := by
  have hsp : (" " : String).length = 1 := rfl
  have hpb : (truncatedPost post link).length + link.length + 1 ≤ 280 := by
    rw [truncatedPost]
    by_cases h : 280 < post.length + link.length + 1
    · rw [if_pos h, strLength_append]
      have hidx : (0 : Int) ≤ (280 : Int) - (link.length : Int) - 4 := by
        omega
      have h1 := pySliceTo_length_le post
        ((280 : Int) - (link.length : Int) - 4) hidx
      have h2 : ((280 : Int) - (link.length : Int) - 4).toNat
          = 276 - link.length := by omega
      have h3 : ("..." : String).length = 3 := rfl
      omega
    · rw [if_neg h]; omega
  rw [twitter_compose, strLength_append, strLength_append, strLength_append,
    strLength_append, hsp, twitterHashtags]
  by_cases h2 : (truncatedPost post link).length + link.length + 1 < 240
  · rw [if_pos h2]
    have := generated_short_hashtags_length title perm hperm
    omega
  · rw [if_neg h2]
    have h0 : ("" : String).length = 0 := rfl
    omega

/-- C1 witness: the amended bound applied at a concrete short post and
link. -/
theorem c1_witness :
    ("https://example.com/a" : String).length ≤ 276
    ∧ (twitter_compose shortHashtags "Short post" "Title"
        "https://example.com/a").length ≤ 281 :=
  ⟨by decide, c1_twitter_length shortHashtags "Short post" "Title"
    "https://example.com/a" (List.Perm.refl _) (by decide)⟩

/-- C2 counterexample: with no credentials configured, requesting the unknown
platform mastodon records status skipped with message Platform not
configured, not status error as claimed. -/
theorem c2_counterexample :
    post_to_platforms (mkPlatforms []) [] (some ["mastodon"])
      = [("mastodon", ⟨"skipped", "Platform not configured"⟩)]
    ∧ ("skipped" : String) ≠ "error" := by
  constructor <;> decide

/-- C2 (amended): a requested platform name outside linkedin, facebook,
twitter is never in the configured list, so its recorded result is always
status skipped with message Platform not configured, for every credential
set and posts mapping; the unknown-platform error branch is unreachable. -/
theorem c2_unknown_platform_skipped (credentials : List String)
    (posts : List (String × String)) (requested : List String) (p : String)
    (hreq : p ∈ requested)
    (hp : p ∉ (["linkedin", "facebook", "twitter"] : List String)) :
    (post_to_platforms (mkPlatforms credentials) posts
      (some requested)).lookup p
      = some ⟨"skipped", "Platform not configured"⟩ := by
  have hne : requested.isEmpty = false := by
    cases requested with
    | nil => simp at hreq
    | cons q rest => rfl
  have heff : effectivePlatforms (mkPlatforms credentials) (some requested)
      = requested := by
    simp [effectivePlatforms, hne]
  rw [post_to_platforms, heff, lookup_map_postEntry _ _ _ _ hreq]
  have hnc : p ∉ mkPlatforms credentials := fun hmem =>
    hp (mkPlatforms_subset credentials p hmem)
  rw [postEntry, if_pos hnc]

/-- C2 witness: the amended rule applied to the concrete unknown platform
mastodon. -/
theorem c2_witness :
    ("mastodon" : String) ∈ (["mastodon"] : List String)
    ∧ (post_to_platforms (mkPlatforms []) []
        (some ["mastodon"])).lookup "mastodon"
      = some ⟨"skipped", "Platform not configured"⟩ :=
  ⟨by decide, c2_unknown_platform_skipped [] [] ["mastodon"] "mastodon"
    (by decide) (by decide)⟩

/-- C3 counterexample: a single sentence of 3 words with a 2-word budget
yields a chunk of 3 words, refuting the claimed per-chunk word bound. -/
theorem c3_counterexample :
    "a b c" ∈ _split_into_chunks (fun _ => ["a b c"]) "a b c" 2
    ∧ wordCount "a b c" = 3 ∧ ¬(wordCount "a b c" ≤ 2) := by
  refine ⟨by decide, by decide, by decide⟩

/-- C3 (amended): the chunks are exactly the space-joins of consecutive
segments of the sentence list, so no sentence is ever split across chunks,
and every chunk either respects the word budget or is a single sentence that
alone exceeds it. -/
theorem c3_chunks_sentence_aligned (sent_tokenize : String → List String)
    (text : String) (max_chunk_length : Nat) :
    (∃ segs : List (List String),
      _split_into_chunks sent_tokenize text max_chunk_length = segs.map joinSp
        ∧ segs.flatten = sent_tokenize text)
    ∧ ∀ c ∈ _split_into_chunks sent_tokenize text max_chunk_length,
        wordCount c ≤ max_chunk_length ∨ c ∈ sent_tokenize text := by
  constructor
  · obtain ⟨segs, h1, h2⟩ :=
      splitChunksGo_segments max_chunk_length (sent_tokenize text) [] 0
    exact ⟨segs, h1, by simpa using h2⟩
  · intro c hc
    exact splitChunksGo_bound max_chunk_length (sent_tokenize text)
      (sent_tokenize text) [] [] 0 rfl (Or.inl (Nat.zero_le _))
      (fun x hx => hx) (by simp) c hc

/-- C3 witness: the amended word-bound disjunction applied to a concrete
chunking. -/
theorem c3_witness :
    wordCount "a. b." ≤ 10
    ∨ "a. b." ∈ ((fun _ : String => ["a.", "b."]) "a. b.") :=
  (c3_chunks_sentence_aligned (fun _ => ["a.", "b."]) "a. b." 10).2 "a. b."
    (by decide)

/-- C4 counterexample: with num_sentences = 0 and two sentences, the Python
slice [-0:] keeps every index, so all sentences are returned instead of
exactly zero. -/
theorem c4_counterexample :
    extract_key_sentences (fun l => List.range l.length) (fun _ _ => 0) []
      (fun _ => ["First point.", "Second point."])
      "First point. Second point." 0
      = "First point. Second point."
    ∧ ("First point. Second point." : String) ≠ ""
    ∧ (0 : Nat) < (["First point.", "Second point."] : List String).length := by
  refine ⟨by decide, by decide, by decide⟩

/-- C4 (amended): whenever argsort returns a permutation of the index range
and the text has more sentences than requested, the selected indices are
strictly increasing (original document order, whatever the scores), all in
range, and for every requested count of at least 1 exactly that many
sentences are selected; at count 0 the slice [-0:] instead selects
everything. -/
theorem c4_order_and_count (argsort : List ℚ → List Nat)
    (cosDist : List Nat → List Nat → ℚ) (stop_words : List String)
    (sent_tokenize : String → List String) (text : String)
    (num_sentences : Nat)
    (hargsort : ∀ l : List ℚ, (argsort l).Perm (List.range l.length))
    (hlt : num_sentences < (sent_tokenize text).length) :
    extract_key_sentences argsort cosDist stop_words sent_tokenize text
        num_sentences
      = joinSp ((topIndices argsort cosDist stop_words (sent_tokenize text)
          num_sentences).map (fun i => (sent_tokenize text).getD i ""))
    ∧ (topIndices argsort cosDist stop_words (sent_tokenize text)
        num_sentences).Sorted (fun a b => a < b)
    ∧ (∀ i ∈ topIndices argsort cosDist stop_words (sent_tokenize text)
        num_sentences, i < (sent_tokenize text).length)
    ∧ (1 ≤ num_sentences →
        (topIndices argsort cosDist stop_words (sent_tokenize text)
          num_sentences).length = num_sentences) := by
  set sentences := sent_tokenize text with hsent
  have hslen : (sentenceScores cosDist stop_words sentences).length
      = sentences.length := by
    simp [sentenceScores]
  have hperm := hargsort (sentenceScores cosDist stop_words sentences)
  rw [hslen] at hperm
  have hlen : (argsort (sentenceScores cosDist stop_words sentences)).length
      = sentences.length := by
    rw [hperm.length_eq, List.length_range]
  have hnd : (argsort (sentenceScores cosDist stop_words sentences)).Nodup :=
    hperm.nodup_iff.mpr (List.nodup_range _)
  have hsl : (pyLastSlice (argsort (sentenceScores cosDist stop_words
      sentences)) num_sentences).Sublist
      (argsort (sentenceScores cosDist stop_words sentences)) := by
    rw [pyLastSlice]
    split_ifs
    · exact List.Sublist.refl _
    · exact List.drop_sublist _ _
  have hnd2 := hnd.sublist hsl
  have hips := List.perm_insertionSort (fun a b : Nat => a ≤ b)
    (pyLastSlice (argsort (sentenceScores cosDist stop_words sentences))
      num_sentences)
  have htop_mem : ∀ i ∈ topIndices argsort cosDist stop_words sentences
      num_sentences, i < sentences.length := by
    intro i hi
    have h1 : i ∈ pyLastSlice (argsort (sentenceScores cosDist stop_words
        sentences)) num_sentences := hips.mem_iff.mp hi
    have h2 : i ∈ argsort (sentenceScores cosDist stop_words sentences) :=
      hsl.subset h1
    exact List.mem_range.mp (hperm.mem_iff.mp h2)
  refine ⟨?_, ?_, htop_mem, ?_⟩
  · rw [extract_key_sentences, if_neg (not_le.mpr hlt)]
  · have hsorted : (topIndices argsort cosDist stop_words sentences
        num_sentences).Sorted (fun a b : Nat => a ≤ b) :=
      List.sorted_insertionSort _ _
    have hnd3 : (topIndices argsort cosDist stop_words sentences
        num_sentences).Pairwise (fun a b : Nat => a ≠ b) :=
      hips.nodup_iff.mpr hnd2
    exact (hsorted.and hnd3).imp (fun h => lt_of_le_of_ne h.1 h.2)
  · intro hge
    have hl1 : (topIndices argsort cosDist stop_words sentences
        num_sentences).length
        = (pyLastSlice (argsort (sentenceScores cosDist stop_words
            sentences)) num_sentences).length := hips.length_eq
    rw [hl1, pyLastSlice, if_neg (by omega), List.length_drop, hlen]
    omega

/-- C4 witness: the amended count conclusion applied at a concrete two
sentence text with one requested sentence. -/
theorem c4_witness :
    (1 : Nat) < ((fun _ : String => ["First point.", "Second point."])
      "First point. Second point.").length
    ∧ (topIndices (fun l => List.range l.length) (fun _ _ => 0) []
        ["First point.", "Second point."] 1).length = 1 :=
  ⟨by decide,
    (c4_order_and_count (fun l => List.range l.length) (fun _ _ => 0) []
      (fun _ => ["First point.", "Second point."])
      "First point. Second point." 1 (fun _ => List.Perm.refl _)
      (by decide)).2.2.2 (by decide)⟩

/-- C5: when the text has at most num_sentences sentences,
extract_key_sentences returns all of them joined in original order, for
every scoring backend, so no similarity score influences the result. -/
theorem c5_few_sentences_passthrough (argsort : List ℚ → List Nat)
    (cosDist : List Nat → List Nat → ℚ) (stop_words : List String)
    (sent_tokenize : String → List String) (text : String)
    (num_sentences : Nat)
    (h : (sent_tokenize text).length ≤ num_sentences) :
    extract_key_sentences argsort cosDist stop_words sent_tokenize text
      num_sentences = joinSp (sent_tokenize text) := by
  rw [extract_key_sentences, if_pos h]

/-- C5 witness: the pass-through applied at a concrete one-sentence text. -/
theorem c5_witness :
    ((fun _ : String => ["One sentence."]) "One sentence.").length ≤ 3
    ∧ extract_key_sentences (fun l => List.range l.length) (fun _ _ => 0) []
        (fun _ => ["One sentence."]) "One sentence." 3
      = joinSp ["One sentence."] :=
  ⟨by decide,
    c5_few_sentences_passthrough (fun l => List.range l.length) (fun _ _ => 0)
      [] (fun _ => ["One sentence."]) "One sentence." 3 (by decide)⟩

/-- C6: a text whose whitespace-normalized form has fewer words than
min_length is returned normalized and unchanged by generate_summary, for
every summarizer backend, so the model is never consulted. -/
theorem c6_short_text_passthrough (summarizer : String → Option String)
    (argsort : List ℚ → List Nat) (cosDist : List Nat → List Nat → ℚ)
    (stop_words : List String) (sent_tokenize : String → List String)
    (text : String) (max_length min_length : Nat)
    (h : (pyWords (pyNormalizeWs text)).length < min_length) :
    generate_summary summarizer argsort cosDist stop_words sent_tokenize text
      max_length min_length = pyNormalizeWs text := by
  simp only [generate_summary]
  rw [if_pos h]

/-- C6 witness: the pass-through applied at a concrete three-word text. -/
theorem c6_witness :
    (pyWords (pyNormalizeWs "Short pharma note")).length < 50
    ∧ generate_summary (fun _ => none) (fun l => List.range l.length)
        (fun _ _ => 0) [] (fun _ => []) "Short pharma note" 150 50
      = pyNormalizeWs "Short pharma note" :=
  ⟨by decide, c6_short_text_passthrough (fun _ => none)
    (fun l => List.range l.length) (fun _ _ => 0) [] (fun _ => [])
    "Short pharma note" 150 50 (by decide)⟩

/-- C7: for every sample order of the pool, the selected hashtags are
distinct, no more numerous than the pool or the requested count, the sample
size never exceeds the population (so random.sample cannot raise), and the
returned string is the space-join of the hash-prefixed selection. -/
theorem c7_hashtags_nodup_bounded (title content : String)
    (perm : List String) (num_hashtags : Nat) (short : Bool)
    (hperm : perm.Perm (tagPool short)) :
    (selectedTags perm num_hashtags short).Nodup
    ∧ (selectedTags perm num_hashtags short).length ≤ (tagPool short).length
    ∧ (selectedTags perm num_hashtags short).length ≤ num_hashtags
    ∧ min num_hashtags (tagPool short).length ≤ perm.length
    ∧ _generate_hashtags title content perm num_hashtags short
        = joinSp ((selectedTags perm num_hashtags short).map
            (fun tag => "#" ++ tag)) := by
  have hpool : (tagPool short).Nodup := by
    cases short <;> decide
  have hnd : perm.Nodup := hperm.nodup_iff.mpr hpool
  have hlenp : perm.length = (tagPool short).length := hperm.length_eq
  refine ⟨hnd.sublist (List.take_sublist _ _), ?_, ?_, ?_, rfl⟩
  · rw [selectedTags, List.length_take]
    omega
  · rw [selectedTags, List.length_take]
    omega
  · omega

/-- C7 witness: the bounds applied at a concrete sample of the short pool. -/
theorem c7_witness :
    (selectedTags shortHashtags 2 true).Nodup
    ∧ (selectedTags shortHashtags 2 true).length ≤ 2 :=
  ⟨(c7_hashtags_nodup_bounded "t" "c" shortHashtags 2 true
      (List.Perm.refl _)).1,
    (c7_hashtags_nodup_bounded "t" "c" shortHashtags 2 true
      (List.Perm.refl _)).2.2.1⟩

/-- C8: for every nonempty record batch the CSV header is sorted, has no
duplicate column, contains exactly the keys occurring in some record, and
there is one data row per record. -/
theorem c8_csv_header_rows (posts_data : List (List (String × String)))
    (hne : posts_data ≠ []) :
    (save_posts_to_csv posts_data).1.Sorted (fun a b => a ≤ b)
    ∧ (save_posts_to_csv posts_data).1.Nodup
    ∧ (∀ k, k ∈ (save_posts_to_csv posts_data).1 ↔
        ∃ r ∈ posts_data, k ∈ r.map Prod.fst)
    ∧ (save_posts_to_csv posts_data).2.length = posts_data.length := by
  refine ⟨?_, ?_, ?_, ?_⟩
  · exact List.sorted_insertionSort _ _
  · exact (List.perm_insertionSort _ _).nodup_iff.mpr (List.nodup_dedup _)
  · intro k
    rw [show (save_posts_to_csv posts_data).1 = csvFieldnames posts_data
        from rfl, csvFieldnames, (List.perm_insertionSort _ _).mem_iff,
      List.mem_dedup, csvKeys, List.mem_flatten]
    constructor
    · rintro ⟨l, hl, hkl⟩
      obtain ⟨r, hr, rfl⟩ := List.mem_map.mp hl
      exact ⟨r, hr, hkl⟩
    · rintro ⟨r, hr, hkr⟩
      exact ⟨r.map Prod.fst, List.mem_map.mpr ⟨r, hr, rfl⟩, hkr⟩
  · simp [save_posts_to_csv]

/-- C8 witness: the row-count conclusion applied to a concrete one-record
batch. -/
theorem c8_witness :
    ([[("title", "T")]] : List (List (String × String))) ≠ []
    ∧ (save_posts_to_csv [[("title", "T")]]).2.length
        = ([[("title", "T")]] : List (List (String × String))).length :=
  ⟨by decide, (c8_csv_header_rows [[("title", "T")]] (by decide)).2.2.2⟩

/-- C9: an article whose content key is absent or whose content strips to the
empty string gets summary equal to its title, for every summarizer backend,
and this is what the processing stage records for it. -/
theorem c9_empty_body_title_summary (summarizer : String → Option String)
    (argsort : List ℚ → List Nat) (cosDist : List Nat → List Nat → ℚ)
    (stop_words : List String) (sent_tokenize : String → List String)
    (a : Article) (t : String) (htitle : a.title = some t)
    (hbody : ∀ c, a.content = some c → pyStrip c = "") :
    (articleSummary summarizer argsort cosDist stop_words sent_tokenize
      a).summary = some t
    ∧ ∀ articles : List Article, a ∈ articles →
        articleSummary summarizer argsort cosDist stop_words sent_tokenize a
          ∈ process_articles summarizer argsort cosDist stop_words
              sent_tokenize articles := by
  have hbn : bodyNonempty a = false := by
    cases hc : a.content with
    | none => simp [bodyNonempty, hc]
    | some c => simp [bodyNonempty, hc, hbody c hc]
  constructor
  · simp [articleSummary, hbn, htitle]
  · intro articles ha
    exact List.mem_map.mpr ⟨a, ha, rfl⟩

/-- C9 witness: the pass-through-to-title rule applied to a concrete article
without content. -/
theorem c9_witness :
    (articleSummary (fun _ => none) (fun l => List.range l.length)
      (fun _ _ => 0) [] (fun _ => [])
      ⟨some "FDA approves drug", none, none, none⟩).summary
      = some "FDA approves drug" :=
  (c9_empty_body_title_summary (fun _ => none) (fun l => List.range l.length)
    (fun _ _ => 0) [] (fun _ => [])
    ⟨some "FDA approves drug", none, none, none⟩ "FDA approves drug" rfl
    (fun _ hc => Option.noConfusion hc)).1

/-- C10: _sentence_similarity returns 0 whenever either filtered word list is
empty, before any cosine computation; otherwise both count vectors have
positive squared norm, so the cosine-distance denominator is nonzero and no
division by zero can occur. -/
theorem c10_sentence_similarity_total (cosDist : List Nat → List Nat → ℚ)
    (stop_words : List String) (sent1 sent2 : String) :
    (((sentWords stop_words sent1).isEmpty
        || (sentWords stop_words sent2).isEmpty) = true →
      _sentence_similarity cosDist stop_words sent1 sent2 = 0)
    ∧ (((sentWords stop_words sent1).isEmpty
        || (sentWords stop_words sent2).isEmpty) = false →
      0 < normSq (vectorFor (allWordsOf (sentWords stop_words sent1)
          (sentWords stop_words sent2)) (sentWords stop_words sent1))
      ∧ 0 < normSq (vectorFor (allWordsOf (sentWords stop_words sent1)
          (sentWords stop_words sent2)) (sentWords stop_words sent2))) := by
  constructor
  · intro h
    simp only [_sentence_similarity]
    rw [if_pos h]
  · intro h
    rw [Bool.or_eq_false_iff] at h
    obtain ⟨h1, h2⟩ := h
    have hn1 : sentWords stop_words sent1 ≠ [] := by
      intro hnil
      rw [hnil] at h1
      simp at h1
    have hn2 : sentWords stop_words sent2 ≠ [] := by
      intro hnil
      rw [hnil] at h2
      simp at h2
    constructor
    · refine normSq_pos _ _ hn1 ?_
      intro w hw
      rw [allWordsOf, List.mem_dedup]
      exact List.mem_append_left _ hw
    · refine normSq_pos _ _ hn2 ?_
      intro w hw
      rw [allWordsOf, List.mem_dedup]
      exact List.mem_append_right _ hw

/-- C10 witness: the zero-guard branch applied at a concrete sentence that is
entirely stop words. -/
theorem c10_witness :
    ((sentWords ["the"] "the").isEmpty
      || (sentWords ["the"] "word").isEmpty) = true
    ∧ _sentence_similarity (fun _ _ => 0) ["the"] "the" "word" = 0 :=
  ⟨by decide, (c10_sentence_similarity_total (fun _ _ => 0) ["the"] "the"
    "word").1 (by decide)⟩
